import Mathlib

/-!
Verification development for a slice of the dagster repository:
the Polytomic workspace state fetcher
(dagster_polytomic/workspace.py), the git-metadata utilities of
dagster-dg-cli, and the branch-deployment delete command flow.

The Polytomic fetcher is embedded directly from
src/python_modules/libraries/dagster-polytomic/dagster_polytomic/workspace.py.
Vendor-SDK network responses are modelled as a record of response
functions; each REST call made is recorded in a trace of ApiCall values
so that call order and endpoints are provable facts.  The mutable
Python object state (the cached_property client cache) is modelled by
explicit state passing of a PolytomicWorkspace value.

The git utilities and the delete command implementation are not part of
the source slice (only their tests are), so they are modelled from the
specification, and this is noted on each such definition.
-/

/-! ## Polytomic workspace data model, from workspace.py and its imports -/

/-- Modelled from the spec: objects.py (PolytomicConnection and friends) is
not in the source slice.  A raw connection object returned by the vendor
SDK connections.list endpoint; it carries an identifier. -/
structure ConnectionResponse where
  id : String
deriving Repr, DecidableEq

/-- Modelled from the spec: a raw bulk-sync object returned by the vendor
SDK bulk_sync.list endpoint; workspace.py reads its id field. -/
structure BulkSyncResponse where
  id : String
deriving Repr, DecidableEq

/-- Modelled from the spec: a raw schema object returned by the vendor SDK
bulk_sync.schemas.list endpoint. -/
structure BulkSyncSchemaResponse where
  id : String
deriving Repr, DecidableEq

/-- Modelled from the spec: the domain object for a Polytomic connection,
built by PolytomicConnection.from_api_response. -/
structure PolytomicConnection where
  id : String
deriving Repr, DecidableEq

/-- Modelled from the spec: the domain object for a Polytomic bulk sync;
workspace.py reads its id field when keying the schema dictionary. -/
structure PolytomicBulkSync where
  id : String
deriving Repr, DecidableEq

/-- Modelled from the spec: the domain object for a bulk-sync schema. -/
structure PolytomicBulkSyncSchema where
  id : String
deriving Repr, DecidableEq

/-- Modelled from the spec: from_api_response for connections preserves the
identifier of the raw API object. -/
def PolytomicConnection.from_api_response (c : ConnectionResponse) : PolytomicConnection :=
  ⟨c.id⟩

/-- Modelled from the spec: from_api_response for bulk syncs preserves the
identifier of the raw API object. -/
def PolytomicBulkSync.from_api_response (s : BulkSyncResponse) : PolytomicBulkSync :=
  ⟨s.id⟩

/-- Modelled from the spec: from_api_response for bulk-sync schemas
preserves the identifier of the raw API object. -/
def PolytomicBulkSyncSchema.from_api_response (s : BulkSyncSchemaResponse) : PolytomicBulkSyncSchema :=
  ⟨s.id⟩

/-- An exception raised by a vendor SDK call. -/
structure PolytomicError where
  message : String
deriving Repr, DecidableEq

/-- The response envelope of a vendor SDK list call: its data field may be
absent (None), mirroring the response.data access in workspace.py. -/
structure ListEnvelope (α : Type) where
  data : Option (List α)
deriving Repr, DecidableEq

/-- The Polytomic client object, constructed in the client cached_property
of workspace.py with a version string and a token. -/
structure Polytomic where
  version : String
  token : String
deriving Repr, DecidableEq

/-- workspace.py line 14: POLYTOMIC_CLIENT_VERSION = "2024-02-08". -/
def POLYTOMIC_CLIENT_VERSION : String := "2024-02-08"

/-- The vendor SDK network behaviour: for a given client object, the
response (or raised exception) of each of the three REST list endpoints.
The schemas endpoint additionally takes the bulk_sync_id argument. -/
structure PolytomicApi where
  connections_list : Polytomic → Except PolytomicError (ListEnvelope ConnectionResponse)
  bulk_sync_list : Polytomic → Except PolytomicError (ListEnvelope BulkSyncResponse)
  bulk_sync_schemas_list : Polytomic → String → Except PolytomicError (ListEnvelope BulkSyncSchemaResponse)

/-- One REST call made by the fetcher, for the call trace. -/
inductive ApiCall where
  | connectionsList : ApiCall
  | bulkSyncList : ApiCall
  | bulkSyncSchemasList (bulk_sync_id : String) : ApiCall
deriving Repr, DecidableEq

/-- The PolytomicWorkspace instance state: the api_key field and the slot
that cached_property uses to cache the constructed client. -/
structure PolytomicWorkspace where
  api_key : String
  cached_client : Option Polytomic
deriving Repr, DecidableEq

/-- Constructing a PolytomicWorkspace(api_key=...) instance: the client
slot starts empty, the client is not built eagerly. -/
def PolytomicWorkspace.mk_instance (api_key : String) : PolytomicWorkspace :=
  ⟨api_key, none⟩

/-- workspace.py lines 26-31: the client cached_property.  On first access
it constructs Polytomic(version=POLYTOMIC_CLIENT_VERSION, token=self.api_key)
and stores it; later accesses return the stored client unchanged. -/
def PolytomicWorkspace.client (ws : PolytomicWorkspace) : Polytomic × PolytomicWorkspace :=
  match ws.cached_client with
  | some c => (c, ws)
  | none =>
    let c : Polytomic := ⟨POLYTOMIC_CLIENT_VERSION, ws.api_key⟩
    (c, { ws with cached_client := some c })

/-- The client a workspace instance uses: the first component of a client
property access. -/
def PolytomicWorkspace.client_value (ws : PolytomicWorkspace) : Polytomic :=
  ws.client.1

/-- The result assembled by fetch_polytomic_state.  The Python dict keyed
by bulk-sync id is modelled as an association list built with Python dict
insertion semantics. -/
structure PolytomicWorkspaceData where
  connections : List PolytomicConnection
  bulk_syncs : List PolytomicBulkSync
  schemas_by_bulk_sync_id : List (String × List PolytomicBulkSyncSchema)
deriving Repr, DecidableEq

/-- Python dict assignment d[k] = v: replace the value at an existing key
in place, otherwise append the new binding at the end. -/
def dict_insert {α : Type} (k : String) (v : α) :
    List (String × α) → List (String × α)
  | [] => [(k, v)]
  | (k', v') :: rest =>
    if k' = k then (k, v) :: rest else (k', v') :: dict_insert k v rest

/-- Python dict lookup d[k] (as an Option). -/
def dict_lookup {α : Type} (k : String) : List (String × α) → Option α
  | [] => none
  | (k', v) :: rest => if k' = k then some v else dict_lookup k rest

/-- workspace.py lines 33-36, _fetch_connections: access self.client, call
its connections.list endpoint, treat a None data field as the empty list,
and convert each raw object with from_api_response.  Returns the updated
instance state, the trace of REST calls made, and the result or the
propagated exception. -/
def PolytomicWorkspace._fetch_connections (api : PolytomicApi) (ws : PolytomicWorkspace) :
    PolytomicWorkspace × List ApiCall × Except PolytomicError (List PolytomicConnection) :=
  let (c, ws) := ws.client
  match api.connections_list c with
  | .error e => (ws, [ApiCall.connectionsList], .error e)
  | .ok resp =>
    (ws, [ApiCall.connectionsList],
      .ok ((resp.data.getD []).map PolytomicConnection.from_api_response))

/-- workspace.py lines 38-41, _fetch_bulk_syncs: same shape as
_fetch_connections over the bulk_sync.list endpoint. -/
def PolytomicWorkspace._fetch_bulk_syncs (api : PolytomicApi) (ws : PolytomicWorkspace) :
    PolytomicWorkspace × List ApiCall × Except PolytomicError (List PolytomicBulkSync) :=
  let (c, ws) := ws.client
  match api.bulk_sync_list c with
  | .error e => (ws, [ApiCall.bulkSyncList], .error e)
  | .ok resp =>
    (ws, [ApiCall.bulkSyncList],
      .ok ((resp.data.getD []).map PolytomicBulkSync.from_api_response))

/-- workspace.py lines 43-46, _fetch_bulk_sync_schemas: same shape over the
bulk_sync.schemas.list endpoint for one bulk_sync_id. -/
def PolytomicWorkspace._fetch_bulk_sync_schemas (api : PolytomicApi) (ws : PolytomicWorkspace)
    (bulk_sync_id : String) :
    PolytomicWorkspace × List ApiCall × Except PolytomicError (List PolytomicBulkSyncSchema) :=
  let (c, ws) := ws.client
  match api.bulk_sync_schemas_list c bulk_sync_id with
  | .error e => (ws, [ApiCall.bulkSyncSchemasList bulk_sync_id], .error e)
  | .ok resp =>
    (ws, [ApiCall.bulkSyncSchemasList bulk_sync_id],
      .ok ((resp.data.getD []).map PolytomicBulkSyncSchema.from_api_response))

/-- workspace.py lines 55-57: the for-loop of fetch_polytomic_state, filling
the schemas dict with schemas[bulk_sync.id] = self._fetch_bulk_sync_schemas(...)
for each fetched bulk sync in order; an exception aborts the loop and
propagates. -/
def fetch_schemas_loop (api : PolytomicApi) :
    PolytomicWorkspace → List PolytomicBulkSync →
    List (String × List PolytomicBulkSyncSchema) →
    PolytomicWorkspace × List ApiCall ×
      Except PolytomicError (List (String × List PolytomicBulkSyncSchema))
  | ws, [], acc => (ws, [], .ok acc)
  | ws, s :: rest, acc =>
    match PolytomicWorkspace._fetch_bulk_sync_schemas api ws s.id with
    | (ws', t, .error e) => (ws', t, .error e)
    | (ws', t, .ok schemas) =>
      let (ws'', ts, r) := fetch_schemas_loop api ws' rest (dict_insert s.id schemas acc)
      (ws'', t ++ ts, r)

/-- workspace.py lines 48-63, fetch_polytomic_state: fetch connections,
then bulk syncs, then each bulk-sync schema list in order, and assemble a
PolytomicWorkspaceData; any exception propagates unchanged.  Returns the
updated instance state, the trace of REST calls made, and the outcome. -/
def PolytomicWorkspace.fetch_polytomic_state (api : PolytomicApi) (ws : PolytomicWorkspace) :
    PolytomicWorkspace × List ApiCall × Except PolytomicError PolytomicWorkspaceData :=
  match PolytomicWorkspace._fetch_connections api ws with
  | (ws, t1, .error e) => (ws, t1, .error e)
  | (ws, t1, .ok connections) =>
    match PolytomicWorkspace._fetch_bulk_syncs api ws with
    | (ws, t2, .error e) => (ws, t1 ++ t2, .error e)
    | (ws, t2, .ok bulk_syncs) =>
      match fetch_schemas_loop api ws bulk_syncs [] with
      | (ws, t3, .error e) => (ws, t1 ++ t2 ++ t3, .error e)
      | (ws, t3, .ok schemas) =>
        (ws, t1 ++ t2 ++ t3,
          .ok { connections := connections
                bulk_syncs := bulk_syncs
                schemas_by_bulk_sync_id := schemas })

/-! ## Git metadata utilities, modelled from the spec -/

/-- A directory path, as the list of path components with the deepest
component first; the filesystem root is the empty list, and the parent
directory is the tail. -/
abbrev DirPath : Type := List String

/-- An error raised by a git utility function. -/
structure GitError where
  message : String
deriving Repr, DecidableEq

/-- List substring test helpers: starts_with_list pat l holds when pat is
an initial segment of l. -/
def starts_with_list : List Char → List Char → Bool
  | [], _ => true
  | _ :: _, [] => false
  | p :: ps, x :: xs => p = x && starts_with_list ps xs

/-- has_substring pat l holds when pat occurs contiguously inside l; used
to state the error-message-contains assertions of the tests. -/
def has_substring (pat : List Char) : List Char → Bool
  | [] => starts_with_list pat []
  | x :: xs => starts_with_list pat (x :: xs) || has_substring pat xs

/-- Modelled from the spec: git_utils.py is not in the source slice.
find_git_repo_root walks parent directories from the given path looking
for the git marker and raises No git repository found when it runs out of
ancestors. -/
def find_git_repo_root (has_git_marker : DirPath → Bool) : DirPath → Except GitError DirPath
  | [] =>
    if has_git_marker [] then .ok ([] : List String)
    else .error ⟨"No git repository found"⟩
  | c :: parent =>
    if has_git_marker (c :: parent) then .ok (c :: parent)
    else find_git_repo_root has_git_marker parent

/-- dropThroughChar c l drops everything up to and including the first
occurrence of c in l; the string-parsing primitive of the repo-name
extraction (part after the colon, or after a slash). -/
def dropThroughChar (c : Char) : List Char → List Char
  | [] => []
  | x :: xs => if x = c then xs else dropThroughChar c xs

/-- strip4_tig_dot recognises a reversed .git suffix at the head of a
reversed character list, returning the rest when present. -/
def strip4_tig_dot : List Char → Option (List Char)
  | 't' :: 'i' :: 'g' :: '.' :: rest => some rest
  | _ => none

/-- ends_with_dot_git l holds when the character list ends in .git. -/
def ends_with_dot_git (l : List Char) : Bool :=
  (strip4_tig_dot l.reverse).isSome

/-- strip_dot_git removes a trailing .git from a character list when
present. -/
def strip_dot_git (l : List Char) : List Char :=
  match strip4_tig_dot l.reverse with
  | some rest => rest.reverse
  | none => l

/-- has_ssh_form detects a remote URL of the SSH form git@host:org/repo. -/
def has_ssh_form : List Char → Bool
  | 'g' :: 'i' :: 't' :: '@' :: _ => true
  | _ => false

/-- Modelled from the spec: the remote-derived repository name org/repo,
with the optional .git suffix stripped.  For an SSH-form URL the name is
the part after the colon; otherwise (an HTTPS URL scheme://host/org/repo)
it is the part after the third slash, which skips scheme://host. -/
def get_local_repo_name_of_url (url : List Char) : List Char :=
  if has_ssh_form (strip_dot_git url) then dropThroughChar ':' (strip_dot_git url)
  else dropThroughChar '/' (dropThroughChar '/' (dropThroughChar '/' (strip_dot_git url)))

/-- The latest-commit metadata recorded by git: hash, author name/email,
timestamp (git stores whole seconds; the Python code converts the integer
to a float, modelled here by the integer it denotes exactly), message. -/
structure GitCommit where
  commit_hash : String
  author_email : String
  author_name : String
  timestamp : Int
  commit_message : String
deriving Repr, DecidableEq

/-- The on-disk git state a repository presents to the utilities: the
configured remote URL if any, the current branch if HEAD is not detached,
and the latest commit if any commit exists. -/
structure GitRepo where
  remote_url : Option (List Char)
  head_branch : Option String
  latest_commit : Option GitCommit
deriving Repr, DecidableEq

/-- Modelled from the spec: get_local_repo_name queries the configured
remote and parses the repository name out of its URL, raising Could not
determine repo name when the repository has no remote configured. -/
def get_local_repo_name (repo : GitRepo) : Except GitError (List Char) :=
  match repo.remote_url with
  | none => .error ⟨"Could not determine repo name"⟩
  | some url => .ok (get_local_repo_name_of_url url)

/-- Modelled from the spec: get_local_branch_name returns the current
branch name, raising an error mentioning detached HEAD when HEAD is
detached. -/
def get_local_branch_name (repo : GitRepo) : Except GitError String :=
  match repo.head_branch with
  | none => .error ⟨"Repository is in detached HEAD state"⟩
  | some b => .ok b

/-- A value of the commit-metadata dictionary: Python strings, and the
Python float for the timestamp (an exactly representable whole number of
seconds, modelled by that integer). -/
inductive GitValue where
  | str (s : String) : GitValue
  | float (seconds : Int) : GitValue
deriving Repr, DecidableEq

/-- Modelled from the spec: read_git_commit_metadata reads the latest
commit from git log into a dictionary with keys commit_hash,
author_email, author_name, timestamp, commit_message, raising Could not
read git state when the repository has no commits. -/
def read_git_commit_metadata (repo : GitRepo) :
    Except GitError (List (String × GitValue)) :=
  match repo.latest_commit with
  | none => .error ⟨"Could not read git state"⟩
  | some c =>
    .ok [("commit_hash", GitValue.str c.commit_hash),
         ("author_email", GitValue.str c.author_email),
         ("author_name", GitValue.str c.author_name),
         ("timestamp", GitValue.float c.timestamp),
         ("commit_message", GitValue.str c.commit_message)]

/-- The git environment a path lives in: which directories carry the git
marker, and the git state governing each path. -/
structure GitEnv where
  has_git_marker : DirPath → Bool
  repo_at : DirPath → GitRepo

/-- Modelled from the spec: get_git_metadata_for_branch_deployment
combines the four readers into a 4-tuple (repo_root, repo_name,
branch_name, commit_metadata), reading commit metadata only when
read_git_state is set and propagating any error of the readers. -/
def get_git_metadata_for_branch_deployment (env : GitEnv) (path : DirPath)
    (read_git_state : Bool) :
    Except GitError (DirPath × List Char × String × Option (List (String × GitValue))) := do
  let repo_root ← find_git_repo_root env.has_git_marker path
  let repo_name ← get_local_repo_name (env.repo_at path)
  let branch_name ← get_local_branch_name (env.repo_at path)
  if read_git_state then
    let md ← read_git_commit_metadata (env.repo_at path)
    pure (repo_root, repo_name, branch_name, some md)
  else
    pure (repo_root, repo_name, branch_name, none)

/-! ## Branch-deployment delete command, modelled from the spec -/

/-- The result of the deployment-by-name GraphQL lookup: either not found,
or a deployment record with name, id and type (BRANCH, FULL, ...). -/
inductive DeploymentLookup where
  | notFound : DeploymentLookup
  | found (deploymentName : String) (deploymentId : Nat) (deploymentType : String) :
      DeploymentLookup
deriving Repr, DecidableEq

/-- The GraphQL backend behaviour seen by the delete command: the answer
of the deployment-by-name query for each name. -/
structure GqlBackend where
  deployment_by_name : String → DeploymentLookup

/-- One GraphQL call issued by the delete command, for the call trace. -/
inductive GqlCall where
  | deploymentByName (deploymentName : String) : GqlCall
  | deleteDeployment (deploymentId : Nat) : GqlCall
deriving Repr, DecidableEq

/-- Modelled from the spec: the delete-by-name flow of the
branch-deployment command maps to a lookup-then-mutate pair of GraphQL
calls: look the deployment up by name; if it is missing or not of BRANCH
type, exit non-zero without mutating; otherwise issue the delete mutation
with the deploymentId from the lookup and exit 0.  Returns the trace of
GraphQL calls issued and the process exit code. -/
def delete_branch_deployment (backend : GqlBackend) (deploymentName : String) :
    List GqlCall × Nat :=
  match backend.deployment_by_name deploymentName with
  | .notFound => ([GqlCall.deploymentByName deploymentName], 1)
  | .found _ deploymentId deploymentType =>
    if deploymentType = "BRANCH" then
      ([GqlCall.deploymentByName deploymentName, GqlCall.deleteDeployment deploymentId], 0)
    else
      ([GqlCall.deploymentByName deploymentName], 1)

/-! ## Lemmas about the client cache and the fetch helpers -/

lemma client_snd_api_key (ws : PolytomicWorkspace) :
    (ws.client).2.api_key = ws.api_key := by
  rcases ws with ⟨k, oc⟩
  cases oc <;> rfl

lemma client_snd_cached (ws : PolytomicWorkspace) :
    (ws.client).2.cached_client = some ws.client.1 := by
  rcases ws with ⟨k, oc⟩
  cases oc <;> rfl

lemma client_stable (ws : PolytomicWorkspace) :
    ((ws.client).2).client = (ws.client.1, (ws.client).2) := by
  rcases ws with ⟨k, oc⟩
  cases oc <;> rfl

lemma client_value_stable (ws : PolytomicWorkspace) :
    ((ws.client).2).client_value = ws.client_value := by
  simp [PolytomicWorkspace.client_value, client_stable]

lemma client_value_of_uncached (ws : PolytomicWorkspace)
    (h : ws.cached_client = none) :
    ws.client_value = ⟨POLYTOMIC_CLIENT_VERSION, ws.api_key⟩ := by
  rcases ws with ⟨k, oc⟩
  cases oc with
  | none => rfl
  | some c => simp at h

lemma fetch_connections_def (api : PolytomicApi) (ws : PolytomicWorkspace) :
    PolytomicWorkspace._fetch_connections api ws =
      ((ws.client).2, [ApiCall.connectionsList],
        (api.connections_list ws.client_value).map
          (fun resp => (resp.data.getD []).map PolytomicConnection.from_api_response)) := by
  unfold PolytomicWorkspace._fetch_connections
  rcases hcw : ws.client with ⟨c, ws2⟩
  have hv : ws.client_value = c := by simp [PolytomicWorkspace.client_value, hcw]
  rw [hv]
  cases h2 : api.connections_list c <;> simp [h2, Except.map]

lemma fetch_bulk_syncs_def (api : PolytomicApi) (ws : PolytomicWorkspace) :
    PolytomicWorkspace._fetch_bulk_syncs api ws =
      ((ws.client).2, [ApiCall.bulkSyncList],
        (api.bulk_sync_list ws.client_value).map
          (fun resp => (resp.data.getD []).map PolytomicBulkSync.from_api_response)) := by
  unfold PolytomicWorkspace._fetch_bulk_syncs
  rcases hcw : ws.client with ⟨c, ws2⟩
  have hv : ws.client_value = c := by simp [PolytomicWorkspace.client_value, hcw]
  rw [hv]
  cases h2 : api.bulk_sync_list c <;> simp [h2, Except.map]

lemma fetch_bulk_sync_schemas_def (api : PolytomicApi) (ws : PolytomicWorkspace)
    (bulk_sync_id : String) :
    PolytomicWorkspace._fetch_bulk_sync_schemas api ws bulk_sync_id =
      ((ws.client).2, [ApiCall.bulkSyncSchemasList bulk_sync_id],
        (api.bulk_sync_schemas_list ws.client_value bulk_sync_id).map
          (fun resp => (resp.data.getD []).map PolytomicBulkSyncSchema.from_api_response)) := by
  unfold PolytomicWorkspace._fetch_bulk_sync_schemas
  rcases hcw : ws.client with ⟨c, ws2⟩
  have hv : ws.client_value = c := by simp [PolytomicWorkspace.client_value, hcw]
  rw [hv]
  cases h2 : api.bulk_sync_schemas_list c bulk_sync_id <;> simp [h2, Except.map]

lemma dict_lookup_insert {α : Type} (kq ki : String) (v : α) (d : List (String × α)) :
    dict_lookup kq (dict_insert ki v d) =
      if ki = kq then some v else dict_lookup kq d := by
  induction d with
  | nil => simp [dict_insert, dict_lookup]
  | cons hd tl ih =>
    rcases hd with ⟨k2, v2⟩
    simp only [dict_insert, dict_lookup]
    split_ifs <;> simp_all [dict_lookup]

/-- The dictionary produced by running the schema loop body over a list of
bulk syncs: insert f s.id at each key s.id in order. -/
def insert_all {α : Type} (f : String → α) (syncs : List PolytomicBulkSync)
    (acc : List (String × α)) : List (String × α) :=
  syncs.foldl (fun a s => dict_insert s.id (f s.id) a) acc

lemma dict_lookup_insert_all {α : Type} (f : String → α) (syncs : List PolytomicBulkSync)
    (acc : List (String × α)) (k : String) :
    dict_lookup k (insert_all f syncs acc) =
      if k ∈ syncs.map PolytomicBulkSync.id then some (f k) else dict_lookup k acc := by
  induction syncs generalizing acc with
  | nil => simp [insert_all]
  | cons s rest ih =>
    simp only [insert_all, List.foldl] at ih ⊢
    rw [ih, dict_lookup_insert]
    by_cases hk : k ∈ List.map PolytomicBulkSync.id rest
    · simp [hk]
    · by_cases hs : s.id = k
      · subst hs
        simp [hk]
      · have hs2 : ¬ k = s.id := fun h => hs h.symm
        simp [hk, hs, hs2]

lemma fetch_schemas_loop_ok (api : PolytomicApi) (ws : PolytomicWorkspace)
    (hfix : (ws.client).2 = ws)
    (env : String → ListEnvelope BulkSyncSchemaResponse)
    (henv : ∀ i, api.bulk_sync_schemas_list ws.client_value i = .ok (env i))
    (syncs : List PolytomicBulkSync) (acc : List (String × List PolytomicBulkSyncSchema)) :
    fetch_schemas_loop api ws syncs acc =
      (ws, syncs.map (fun s => ApiCall.bulkSyncSchemasList s.id),
        .ok (insert_all
          (fun i => ((env i).data.getD []).map PolytomicBulkSyncSchema.from_api_response)
          syncs acc)) := by
  induction syncs generalizing acc with
  | nil => simp [fetch_schemas_loop, insert_all]
  | cons s rest ih =>
    simp only [fetch_schemas_loop]
    rw [fetch_bulk_sync_schemas_def, hfix, henv s.id]
    simp only [Except.map]
    rw [ih]
    simp [insert_all]

lemma fetch_schemas_loop_error (api : PolytomicApi) (ws : PolytomicWorkspace)
    (hfix : (ws.client).2 = ws)
    (pre : List PolytomicBulkSync) (s : PolytomicBulkSync) (post : List PolytomicBulkSync)
    (e : PolytomicError)
    (hpre : ∀ s' ∈ pre, ∃ env, api.bulk_sync_schemas_list ws.client_value s'.id = .ok env)
    (herr : api.bulk_sync_schemas_list ws.client_value s.id = .error e)
    (acc : List (String × List PolytomicBulkSyncSchema)) :
    fetch_schemas_loop api ws (pre ++ s :: post) acc =
      (ws, pre.map (fun s' => ApiCall.bulkSyncSchemasList s'.id) ++
        [ApiCall.bulkSyncSchemasList s.id], .error e) := by
  induction pre generalizing acc with
  | nil =>
    simp only [List.nil_append, fetch_schemas_loop]
    rw [fetch_bulk_sync_schemas_def, hfix, herr]
    simp [Except.map]
  | cons p rest ih =>
    obtain ⟨penv, hpenv⟩ := hpre p (by simp)
    simp only [List.cons_append, fetch_schemas_loop]
    rw [fetch_bulk_sync_schemas_def, hfix, hpenv]
    simp only [Except.map]
    have hx := ih (fun s' hs' => hpre s' (by simp [hs']))
      (dict_insert p.id ((penv.data.getD []).map PolytomicBulkSyncSchema.from_api_response) acc)
    simp only [List.append_eq] at hx ⊢
    rw [hx]
    simp

lemma fetch_schemas_loop_state (api : PolytomicApi) (ws : PolytomicWorkspace)
    (hfix : (ws.client).2 = ws)
    (syncs : List PolytomicBulkSync) (acc : List (String × List PolytomicBulkSyncSchema)) :
    (fetch_schemas_loop api ws syncs acc).1 = ws := by
  induction syncs generalizing acc with
  | nil => simp [fetch_schemas_loop]
  | cons s rest ih =>
    simp only [fetch_schemas_loop]
    rw [fetch_bulk_sync_schemas_def, hfix]
    cases h : api.bulk_sync_schemas_list ws.client_value s.id with
    | error e => simp [Except.map]
    | ok resp =>
      simp only [Except.map]
      rcases hl : fetch_schemas_loop api ws rest
          (dict_insert s.id ((resp.data.getD []).map PolytomicBulkSyncSchema.from_api_response) acc)
        with ⟨ws3, ts, r⟩
      have h2 := ih
        (dict_insert s.id ((resp.data.getD []).map PolytomicBulkSyncSchema.from_api_response) acc)
      rw [hl] at h2
      simpa using h2

lemma fetch_polytomic_state_fst (api : PolytomicApi) (ws : PolytomicWorkspace) :
    (PolytomicWorkspace.fetch_polytomic_state api ws).1 = (ws.client).2 := by
  have hst : (((ws.client).2).client).2 = (ws.client).2 := by rw [client_stable]
  unfold PolytomicWorkspace.fetch_polytomic_state
  rw [fetch_connections_def]
  cases h1 : api.connections_list ws.client_value with
  | error e => simp [Except.map]
  | ok env1 =>
    simp only [Except.map]
    rw [fetch_bulk_syncs_def, client_value_stable, hst]
    cases h2 : api.bulk_sync_list ws.client_value with
    | error e => simp [Except.map]
    | ok env2 =>
      simp only [Except.map]
      rcases hl : fetch_schemas_loop api ((ws.client).2)
          ((env2.data.getD []).map PolytomicBulkSync.from_api_response) []
        with ⟨ws3, ts, r⟩
      have h3 := fetch_schemas_loop_state api ((ws.client).2) hst
        ((env2.data.getD []).map PolytomicBulkSync.from_api_response) []
      rw [hl] at h3
      cases r <;> simpa using h3

/-- Claim C9: each of the three private fetch helpers treats a None data
field in the SDK response envelope as the empty list, so the fetched
connections, bulk syncs and per-id schema lists are always lists, empty
when the data field is absent. -/
theorem fetch_helpers_none_data_empty_list (api : PolytomicApi) (ws : PolytomicWorkspace) :
    (api.connections_list ws.client_value = .ok ⟨none⟩ →
      (PolytomicWorkspace._fetch_connections api ws).2.2 = .ok []) ∧
    (api.bulk_sync_list ws.client_value = .ok ⟨none⟩ →
      (PolytomicWorkspace._fetch_bulk_syncs api ws).2.2 = .ok []) ∧
    (∀ i, api.bulk_sync_schemas_list ws.client_value i = .ok ⟨none⟩ →
      (PolytomicWorkspace._fetch_bulk_sync_schemas api ws i).2.2 = .ok []) := by
  refine ⟨fun h => ?_, fun h => ?_, fun i h => ?_⟩
  · rw [fetch_connections_def, h]
    simp [Except.map]
  · rw [fetch_bulk_syncs_def, h]
    simp [Except.map]
  · rw [fetch_bulk_sync_schemas_def, h]
    simp [Except.map]

/-- Witness for C9 at a concrete workspace and a concrete response set
whose data fields are all None. -/
theorem fetch_helpers_none_data_empty_list_witness :
    (PolytomicWorkspace._fetch_connections
      ⟨fun _ => .ok ⟨none⟩, fun _ => .ok ⟨none⟩, fun _ _ => .ok ⟨none⟩⟩
      ⟨"test-key", none⟩).2.2 = .ok [] :=
  (fetch_helpers_none_data_empty_list
    ⟨fun _ => .ok ⟨none⟩, fun _ => .ok ⟨none⟩, fun _ _ => .ok ⟨none⟩⟩
    ⟨"test-key", none⟩).1 rfl

/-- Claim C10: the Polytomic client of a PolytomicWorkspace instance is
constructed lazily (the fresh instance caches nothing) and at most once
per instance, always with the fixed API version string 2024-02-08 and the
instance api_key as token; a second property access returns the cached
client without rebuilding it, and fetch_polytomic_state neither mutates
the api_key field nor replaces the cached client, so every call on the
same instance uses the same client. -/
theorem polytomic_client_lazy_cached_fixed :
    (∀ k, (PolytomicWorkspace.mk_instance k).cached_client = none) ∧
    (∀ k, (PolytomicWorkspace.mk_instance k).client_value =
      ⟨POLYTOMIC_CLIENT_VERSION, k⟩) ∧
    (∀ ws : PolytomicWorkspace, ws.cached_client = none →
      ws.client_value = ⟨POLYTOMIC_CLIENT_VERSION, ws.api_key⟩) ∧
    (∀ ws : PolytomicWorkspace,
      ((ws.client).2).client = (ws.client_value, (ws.client).2)) ∧
    (∀ api ws,
      (PolytomicWorkspace.fetch_polytomic_state api ws).1.api_key = ws.api_key) ∧
    (∀ api ws,
      (PolytomicWorkspace.fetch_polytomic_state api ws).1.cached_client =
        some ws.client_value) ∧
    (∀ api ws,
      ((PolytomicWorkspace.fetch_polytomic_state api ws).1).client_value =
        ws.client_value) := by
  refine ⟨fun k => rfl, fun k => rfl, client_value_of_uncached,
    fun ws => client_stable ws, fun api ws => ?_, fun api ws => ?_, fun api ws => ?_⟩
  · rw [fetch_polytomic_state_fst]
    exact client_snd_api_key ws
  · rw [fetch_polytomic_state_fst]
    exact client_snd_cached ws
  · rw [fetch_polytomic_state_fst]
    exact client_value_stable ws

/-- Witness for C10 at a concrete fresh instance. -/
theorem polytomic_client_lazy_cached_fixed_witness :
    (PolytomicWorkspace.client_value ⟨"test-key", none⟩) =
      ⟨POLYTOMIC_CLIENT_VERSION, "test-key"⟩ :=
  polytomic_client_lazy_cached_fixed.2.2.1 ⟨"test-key", none⟩ rfl

/-- Claim C1: for every set of vendor SDK responses, fetch_polytomic_state
performs a sequential fetch, connections first, then bulk syncs, then the
schemas of each fetched bulk sync in order, against the three distinct
REST list endpoints, and returns a PolytomicWorkspaceData whose
connections field is the fetched connections list, whose bulk_syncs field
is the fetched bulk-syncs list, and whose schemas_by_bulk_sync_id
dictionary maps each fetched bulk-sync id, and no other key, to the
schema list fetched for that id. -/
theorem fetch_polytomic_state_sequential_assembly
    (api : PolytomicApi) (ws : PolytomicWorkspace)
    (env1 : ListEnvelope ConnectionResponse) (env2 : ListEnvelope BulkSyncResponse)
    (envS : String → ListEnvelope BulkSyncSchemaResponse)
    (h1 : api.connections_list ws.client_value = .ok env1)
    (h2 : api.bulk_sync_list ws.client_value = .ok env2)
    (hS : ∀ i, api.bulk_sync_schemas_list ws.client_value i = .ok (envS i)) :
    (PolytomicWorkspace.fetch_polytomic_state api ws).2.1 =
      ApiCall.connectionsList :: ApiCall.bulkSyncList ::
        ((env2.data.getD []).map PolytomicBulkSync.from_api_response).map
          (fun s => ApiCall.bulkSyncSchemasList s.id) ∧
    ∃ d, (PolytomicWorkspace.fetch_polytomic_state api ws).2.2 = .ok d ∧
      d.connections = (env1.data.getD []).map PolytomicConnection.from_api_response ∧
      d.bulk_syncs = (env2.data.getD []).map PolytomicBulkSync.from_api_response ∧
      (∀ s ∈ (env2.data.getD []).map PolytomicBulkSync.from_api_response,
        dict_lookup s.id d.schemas_by_bulk_sync_id =
          some (((envS s.id).data.getD []).map PolytomicBulkSyncSchema.from_api_response)) ∧
      (∀ k, dict_lookup k d.schemas_by_bulk_sync_id ≠ none →
        k ∈ ((env2.data.getD []).map PolytomicBulkSync.from_api_response).map
          PolytomicBulkSync.id) := by
  have hst : (((ws.client).2).client).2 = (ws.client).2 := by rw [client_stable]
  have hS2 : ∀ i, api.bulk_sync_schemas_list ((ws.client).2).client_value i = .ok (envS i) := by
    rw [client_value_stable]
    exact hS
  unfold PolytomicWorkspace.fetch_polytomic_state
  rw [fetch_connections_def, h1]
  simp only [Except.map]
  rw [fetch_bulk_syncs_def, client_value_stable, hst, h2]
  simp only [Except.map]
  rw [fetch_schemas_loop_ok api ((ws.client).2) hst envS hS2
    ((env2.data.getD []).map PolytomicBulkSync.from_api_response) []]
  refine ⟨by simp, ⟨_, rfl, rfl, rfl, ?_, ?_⟩⟩
  · intro s hs
    have hm : s.id ∈ ((env2.data.getD []).map PolytomicBulkSync.from_api_response).map
        PolytomicBulkSync.id := List.mem_map_of_mem PolytomicBulkSync.id hs
    rw [dict_lookup_insert_all, if_pos hm]
  · intro k hk
    rw [dict_lookup_insert_all] at hk
    by_cases hmem : k ∈ ((env2.data.getD []).map PolytomicBulkSync.from_api_response).map
        PolytomicBulkSync.id
    · exact hmem
    · rw [if_neg hmem] at hk
      exact absurd rfl hk

/-- Witness for C1 at a concrete set of responses: one connection, one
bulk sync with id b1, one schema per bulk sync. -/
theorem fetch_polytomic_state_sequential_assembly_witness :
    (PolytomicWorkspace.fetch_polytomic_state
      ⟨fun _ => .ok ⟨some [⟨"c1"⟩]⟩, fun _ => .ok ⟨some [⟨"b1"⟩]⟩,
        fun _ _ => .ok ⟨some [⟨"s1"⟩]⟩⟩
      ⟨"test-key", none⟩).2.1 =
      [ApiCall.connectionsList, ApiCall.bulkSyncList,
        ApiCall.bulkSyncSchemasList "b1"] := by
  have h := fetch_polytomic_state_sequential_assembly
    ⟨fun _ => .ok ⟨some [⟨"c1"⟩]⟩, fun _ => .ok ⟨some [⟨"b1"⟩]⟩,
      fun _ _ => .ok ⟨some [⟨"s1"⟩]⟩⟩
    ⟨"test-key", none⟩ ⟨some [⟨"c1"⟩]⟩ ⟨some [⟨"b1"⟩]⟩ (fun _ => ⟨some [⟨"s1"⟩]⟩)
    rfl rfl (fun _ => rfl)
  simpa using h.1

/-- Claim C5: if any of the underlying REST calls raises an exception,
fetch_polytomic_state propagates that exception unchanged and returns no
partial PolytomicWorkspaceData; the trace shows each endpoint was called
at most once with no retry and that fetching stops at the failing call. -/
theorem fetch_polytomic_state_propagates_errors
    (api : PolytomicApi) (ws : PolytomicWorkspace) :
    (∀ e, api.connections_list ws.client_value = .error e →
      PolytomicWorkspace.fetch_polytomic_state api ws =
        ((ws.client).2, [ApiCall.connectionsList], .error e)) ∧
    (∀ env1 e, api.connections_list ws.client_value = .ok env1 →
      api.bulk_sync_list ws.client_value = .error e →
      PolytomicWorkspace.fetch_polytomic_state api ws =
        ((ws.client).2, [ApiCall.connectionsList, ApiCall.bulkSyncList], .error e)) ∧
    (∀ env1 env2 e (pre : List PolytomicBulkSync) s post,
      api.connections_list ws.client_value = .ok env1 →
      api.bulk_sync_list ws.client_value = .ok env2 →
      (env2.data.getD []).map PolytomicBulkSync.from_api_response = pre ++ s :: post →
      (∀ s' ∈ pre, ∃ env, api.bulk_sync_schemas_list ws.client_value s'.id = .ok env) →
      api.bulk_sync_schemas_list ws.client_value s.id = .error e →
      PolytomicWorkspace.fetch_polytomic_state api ws =
        ((ws.client).2,
          ApiCall.connectionsList :: ApiCall.bulkSyncList ::
            (pre.map (fun s' => ApiCall.bulkSyncSchemasList s'.id) ++
              [ApiCall.bulkSyncSchemasList s.id]),
          .error e)) := by
  have hst : (((ws.client).2).client).2 = (ws.client).2 := by rw [client_stable]
  refine ⟨fun e he => ?_, fun env1 e h1 he => ?_,
    fun env1 env2 e pre s post h1 h2 hbs hpre herr => ?_⟩
  · unfold PolytomicWorkspace.fetch_polytomic_state
    rw [fetch_connections_def, he]
    simp [Except.map]
  · unfold PolytomicWorkspace.fetch_polytomic_state
    rw [fetch_connections_def, h1]
    simp only [Except.map]
    rw [fetch_bulk_syncs_def, client_value_stable, hst, he]
    simp [Except.map]
  · have hpre2 : ∀ s' ∈ pre,
        ∃ env, api.bulk_sync_schemas_list ((ws.client).2).client_value s'.id = .ok env := by
      rw [client_value_stable]
      exact hpre
    have herr2 : api.bulk_sync_schemas_list ((ws.client).2).client_value s.id = .error e := by
      rw [client_value_stable]
      exact herr
    unfold PolytomicWorkspace.fetch_polytomic_state
    rw [fetch_connections_def, h1]
    simp only [Except.map]
    rw [fetch_bulk_syncs_def, client_value_stable, hst, h2]
    simp only [Except.map]
    rw [hbs, fetch_schemas_loop_error api ((ws.client).2) hst pre s post e hpre2 herr2 []]
    simp

/-- Witness for C5 at a concrete failing connections call. -/
theorem fetch_polytomic_state_propagates_errors_witness :
    PolytomicWorkspace.fetch_polytomic_state
      ⟨fun _ => .error ⟨"boom"⟩, fun _ => .ok ⟨none⟩, fun _ _ => .ok ⟨none⟩⟩
      ⟨"test-key", none⟩ =
      (⟨"test-key", some ⟨POLYTOMIC_CLIENT_VERSION, "test-key"⟩⟩,
        [ApiCall.connectionsList], .error ⟨"boom"⟩) :=
  (fetch_polytomic_state_propagates_errors
    ⟨fun _ => .error ⟨"boom"⟩, fun _ => .ok ⟨none⟩, fun _ _ => .ok ⟨none⟩⟩
    ⟨"test-key", none⟩).1 ⟨"boom"⟩ rfl

/-! ## Lemmas and theorems for the git utilities -/

lemma find_git_repo_root_no_marker (has : DirPath → Bool) (p : DirPath)
    (h : ∀ n, has (p.drop n) = false) :
    find_git_repo_root has p = .error ⟨"No git repository found"⟩ := by
  induction p with
  | nil =>
    have h0 := h 0
    simp only [List.drop_nil] at h0
    simp [find_git_repo_root, h0]
  | cons c rest ih =>
    have h0 := h 0
    simp only [List.drop_zero] at h0
    simp only [find_git_repo_root, h0, Bool.false_eq_true, if_false]
    exact ih (fun n => by simpa using h (n + 1))

lemma find_git_repo_root_drop (has : DirPath → Bool) (p : DirPath) (n : Nat)
    (hmark : has (p.drop n) = true)
    (hnear : ∀ m, m < n → has (p.drop m) = false) :
    find_git_repo_root has p = .ok (p.drop n) := by
  induction p generalizing n with
  | nil =>
    have h0 : has ([] : List String) = true := by simpa using hmark
    simp [find_git_repo_root, h0]
  | cons c rest ih =>
    by_cases h0 : has (c :: rest) = true
    · rcases Nat.eq_zero_or_pos n with hn | hn
      · subst hn
        simp [find_git_repo_root, h0]
      · have := hnear 0 hn
        simp only [List.drop_zero] at this
        rw [this] at h0
        simp at h0
    · have hn0 : n ≠ 0 := by
        intro h
        subst h
        simp only [List.drop_zero] at hmark
        exact h0 hmark
      obtain ⟨m, rfl⟩ := Nat.exists_eq_succ_of_ne_zero hn0
      have h0f : has (c :: rest) = false := by
        cases hcr : has (c :: rest) with
        | true => exact absurd hcr h0
        | false => rfl
      simp only [find_git_repo_root, h0f, Bool.false_eq_true, if_false,
        List.drop_succ_cons]
      exact ih m (by simpa using hmark)
        (fun m' hm' => by simpa using hnear (m' + 1) (Nat.succ_lt_succ hm'))

lemma find_git_repo_root_some_marker (has : DirPath → Bool) (p : DirPath)
    (h : ∃ n, has (p.drop n) = true) :
    ∃ r, find_git_repo_root has p = .ok r := by
  induction p with
  | nil =>
    obtain ⟨n, hn⟩ := h
    have h0 : has ([] : List String) = true := by simpa using hn
    exact ⟨[], by simp [find_git_repo_root, h0]⟩
  | cons c rest ih =>
    by_cases h0 : has (c :: rest) = true
    · exact ⟨c :: rest, by simp [find_git_repo_root, h0]⟩
    · obtain ⟨n, hn⟩ := h
      have hn0 : n ≠ 0 := by
        intro h
        subst h
        simp only [List.drop_zero] at hn
        exact h0 hn
      obtain ⟨m, rfl⟩ := Nat.exists_eq_succ_of_ne_zero hn0
      have h0f : has (c :: rest) = false := by
        cases hcr : has (c :: rest) with
        | true => exact absurd hcr h0
        | false => rfl
      obtain ⟨r, hr⟩ := ih ⟨m, by simpa using hn⟩
      exact ⟨r, by simp [find_git_repo_root, h0f, hr]⟩

/-- Claim C3: for every directory that lies inside a git repository,
find_git_repo_root walks upward through parent directories and returns
the nearest ancestor (possibly the directory itself) carrying the git
marker; in particular, on a marked repository root it returns the root
itself, and on a nested subdirectory of the root with no marker strictly
below the root it returns that same root.  Paths are component lists with
the deepest component first, so ancestors are the suffixes p.drop n. -/
theorem find_git_repo_root_nearest_ancestor (has : DirPath → Bool) :
    (∀ (p : DirPath) (n : Nat), has (p.drop n) = true →
      (∀ m, m < n → has (p.drop m) = false) →
      find_git_repo_root has p = .ok (p.drop n)) ∧
    (∀ root : DirPath, has root = true →
      find_git_repo_root has root = .ok root) ∧
    (∀ (root rel : DirPath), has root = true →
      (∀ m, m < rel.length → has ((rel ++ root).drop m) = false) →
      find_git_repo_root has (rel ++ root) = .ok root) := by
  refine ⟨find_git_repo_root_drop has, fun root hr => ?_, fun root rel hr hno => ?_⟩
  · have := find_git_repo_root_drop has root 0 (by simpa using hr) (fun m hm => by omega)
    simpa using this
  · have hdrop : (rel ++ root).drop rel.length = root := by
      simp [List.drop_left]
    have := find_git_repo_root_drop has (rel ++ root) rel.length
      (by rw [hdrop]; exact hr) hno
    rwa [hdrop] at this

/-- Witness for C3: a repository root at tmp/repo found from itself and
from a nested subdirectory tmp/repo/a (deepest component first). -/
theorem find_git_repo_root_nearest_ancestor_witness :
    find_git_repo_root (fun q => decide (q = ["repo", "tmp"])) ["repo", "tmp"] =
      .ok ["repo", "tmp"] ∧
    find_git_repo_root (fun q => decide (q = ["repo", "tmp"])) ["a", "repo", "tmp"] =
      .ok ["repo", "tmp"] := by
  constructor
  · exact (find_git_repo_root_nearest_ancestor
      (fun q => decide (q = ["repo", "tmp"]))).2.1 ["repo", "tmp"] (by decide)
  · exact (find_git_repo_root_nearest_ancestor
      (fun q => decide (q = ["repo", "tmp"]))).2.2 ["repo", "tmp"] ["a"] (by decide)
      (fun m hm => by
        have hm0 : m = 0 := Nat.lt_one_iff.mp (by simpa using hm)
        subst hm0
        decide)

/-- Claim C2: each git-metadata function raises an error exactly on its
one enumerated failure case: find_git_repo_root errors with a message
containing No git repository found exactly when no ancestor of the path
(the path itself included) carries the git marker; get_local_repo_name
errors with Could not determine repo name exactly when no remote is
configured; get_local_branch_name errors mentioning detached HEAD exactly
when HEAD is detached; read_git_commit_metadata errors with Could not
read git state exactly when the repository has no commits. -/
theorem git_utils_error_cases (has : DirPath → Bool) (p : DirPath) (repo : GitRepo) :
    ((∀ n, has (p.drop n) = false) →
      ∃ e, find_git_repo_root has p = .error e ∧
        has_substring "No git repository found".toList e.message.toList = true) ∧
    ((∃ n, has (p.drop n) = true) → ∃ r, find_git_repo_root has p = .ok r) ∧
    (repo.remote_url = none →
      ∃ e, get_local_repo_name repo = .error e ∧
        has_substring "Could not determine repo name".toList e.message.toList = true) ∧
    (∀ u, repo.remote_url = some u → ∃ v, get_local_repo_name repo = .ok v) ∧
    (repo.head_branch = none →
      ∃ e, get_local_branch_name repo = .error e ∧
        has_substring "detached HEAD".toList e.message.toList = true) ∧
    (∀ b, repo.head_branch = some b → get_local_branch_name repo = .ok b) ∧
    (repo.latest_commit = none →
      ∃ e, read_git_commit_metadata repo = .error e ∧
        has_substring "Could not read git state".toList e.message.toList = true) ∧
    (∀ c, repo.latest_commit = some c → ∃ d, read_git_commit_metadata repo = .ok d) := by
  refine ⟨fun h => ⟨⟨"No git repository found"⟩, find_git_repo_root_no_marker has p h, by rfl⟩,
    find_git_repo_root_some_marker has p,
    fun h => ⟨⟨"Could not determine repo name"⟩, by simp [get_local_repo_name, h], by rfl⟩,
    fun u h => ⟨get_local_repo_name_of_url u, by simp [get_local_repo_name, h]⟩,
    fun h => ⟨⟨"Repository is in detached HEAD state"⟩, by simp [get_local_branch_name, h],
      by rfl⟩,
    fun b h => by simp [get_local_branch_name, h],
    fun h => ⟨⟨"Could not read git state"⟩, by simp [read_git_commit_metadata, h], by rfl⟩,
    fun c h => ⟨[("commit_hash", GitValue.str c.commit_hash),
      ("author_email", GitValue.str c.author_email),
      ("author_name", GitValue.str c.author_name),
      ("timestamp", GitValue.float c.timestamp),
      ("commit_message", GitValue.str c.commit_message)],
      by simp [read_git_commit_metadata, h]⟩⟩

/-- Witness for C2 at concrete inputs: a filesystem with no marker
anywhere errors out of find_git_repo_root, and a repository on branch
main yields that branch name. -/
theorem git_utils_error_cases_witness :
    find_git_repo_root (fun _ => false) ["a"] = .error ⟨"No git repository found"⟩ ∧
    get_local_branch_name ⟨none, some "main", none⟩ = .ok "main" := by
  have h := git_utils_error_cases (fun _ => false) ["a"] ⟨none, some "main", none⟩
  exact ⟨rfl, h.2.2.2.2.2.1 "main" rfl⟩

/-- Claim C7: for every repository with at least one commit,
read_git_commit_metadata returns a dictionary with exactly the keys
commit_hash, author_email, author_name, timestamp and commit_message,
describing the latest commit, where the timestamp value is the Python
float of the commit time and all other values are strings. -/
theorem read_git_commit_metadata_keys (repo : GitRepo) (c : GitCommit)
    (h : repo.latest_commit = some c) :
    (∃ d, read_git_commit_metadata repo = .ok d) ∧
    (∀ d, read_git_commit_metadata repo = .ok d →
      d.map Prod.fst =
        ["commit_hash", "author_email", "author_name", "timestamp", "commit_message"] ∧
      dict_lookup "commit_hash" d = some (GitValue.str c.commit_hash) ∧
      dict_lookup "author_email" d = some (GitValue.str c.author_email) ∧
      dict_lookup "author_name" d = some (GitValue.str c.author_name) ∧
      dict_lookup "timestamp" d = some (GitValue.float c.timestamp) ∧
      dict_lookup "commit_message" d = some (GitValue.str c.commit_message)) := by
  constructor
  · exact ⟨[("commit_hash", GitValue.str c.commit_hash),
      ("author_email", GitValue.str c.author_email),
      ("author_name", GitValue.str c.author_name),
      ("timestamp", GitValue.float c.timestamp),
      ("commit_message", GitValue.str c.commit_message)],
      by simp [read_git_commit_metadata, h]⟩
  · intro d hd
    rw [read_git_commit_metadata, h] at hd
    simp only [Except.ok.injEq] at hd
    subst hd
    refine ⟨by simp, ?_, ?_, ?_, ?_, ?_⟩ <;> simp [dict_lookup]

/-- Witness for C7 at a concrete one-commit repository. -/
theorem read_git_commit_metadata_keys_witness :
    ([("commit_hash", GitValue.str "abc123"),
      ("author_email", GitValue.str "test@example.com"),
      ("author_name", GitValue.str "Test User"),
      ("timestamp", GitValue.float 1700000000),
      ("commit_message", GitValue.str "Initial commit")].map Prod.fst) =
      ["commit_hash", "author_email", "author_name", "timestamp", "commit_message"] ∧
    dict_lookup "timestamp"
      [("commit_hash", GitValue.str "abc123"),
       ("author_email", GitValue.str "test@example.com"),
       ("author_name", GitValue.str "Test User"),
       ("timestamp", GitValue.float 1700000000),
       ("commit_message", GitValue.str "Initial commit")] =
      some (GitValue.float 1700000000) := by
  have h := (read_git_commit_metadata_keys
    ⟨none, none, some ⟨"abc123", "test@example.com", "Test User", 1700000000,
      "Initial commit"⟩⟩
    ⟨"abc123", "test@example.com", "Test User", 1700000000, "Initial commit"⟩ rfl).2
    [("commit_hash", GitValue.str "abc123"),
     ("author_email", GitValue.str "test@example.com"),
     ("author_name", GitValue.str "Test User"),
     ("timestamp", GitValue.float 1700000000),
     ("commit_message", GitValue.str "Initial commit")] rfl
  exact ⟨h.1, h.2.2.2.2.1⟩

/-- Claim C8: for every path inside a git repository,
get_git_metadata_for_branch_deployment returns the 4-tuple (repo_root,
repo_name, branch_name, commit_metadata) whose first three components
equal the results of find_git_repo_root, get_local_repo_name and
get_local_branch_name on that path regardless of the read_git_state flag,
and whose fourth component is None exactly when read_git_state is False
and the read_git_commit_metadata dictionary exactly when it is True. -/
theorem get_git_metadata_tuple (env : GitEnv) (path : DirPath)
    (root : DirPath) (name : List Char) (branch : String)
    (hroot : find_git_repo_root env.has_git_marker path = .ok root)
    (hname : get_local_repo_name (env.repo_at path) = .ok name)
    (hbranch : get_local_branch_name (env.repo_at path) = .ok branch) :
    get_git_metadata_for_branch_deployment env path false =
      .ok (root, name, branch, none) ∧
    (∀ md, read_git_commit_metadata (env.repo_at path) = .ok md →
      get_git_metadata_for_branch_deployment env path true =
        .ok (root, name, branch, some md)) := by
  constructor
  · simp [get_git_metadata_for_branch_deployment, hroot, hname, hbranch,
      bind, Except.bind, pure, Except.pure]
  · intro md hmd
    simp [get_git_metadata_for_branch_deployment, hroot, hname, hbranch, hmd,
      bind, Except.bind, pure, Except.pure]

/-- Witness for C8 at a concrete environment: the marker at the root
tmp/repo, an SSH remote, branch main and one commit. -/
theorem get_git_metadata_tuple_witness :
    get_git_metadata_for_branch_deployment
      ⟨fun q => decide (q = ["repo", "tmp"]),
        fun _ => ⟨some "git@github.com:dagster-io/dagster.git".toList, some "main",
          some ⟨"abc123", "test@example.com", "Test User", 1700000000, "Initial commit"⟩⟩⟩
      ["repo", "tmp"] false =
      .ok (["repo", "tmp"],
        "dagster-io/dagster".toList, "main", none) :=
  (get_git_metadata_tuple
    ⟨fun q => decide (q = ["repo", "tmp"]),
      fun _ => ⟨some "git@github.com:dagster-io/dagster.git".toList, some "main",
        some ⟨"abc123", "test@example.com", "Test User", 1700000000, "Initial commit"⟩⟩⟩
    ["repo", "tmp"] ["repo", "tmp"] "dagster-io/dagster".toList
    "main" rfl rfl rfl).1

/-! ## Lemmas for the remote URL parsing and the C6 theorem -/

lemma strip4_tig_dot_cons (rest : List Char) :
    strip4_tig_dot ('t' :: 'i' :: 'g' :: '.' :: rest) = some rest := rfl

lemma strip_dot_git_append (s : List Char) :
    strip_dot_git (s ++ ['.', 'g', 'i', 't']) = s := by
  have h : (s ++ ['.', 'g', 'i', 't']).reverse = 't' :: 'i' :: 'g' :: '.' :: s.reverse := by
    simp
  unfold strip_dot_git
  rw [h, strip4_tig_dot_cons]
  simp

lemma strip_dot_git_of_no_suffix (l : List Char) (h : ends_with_dot_git l = false) :
    strip_dot_git l = l := by
  unfold ends_with_dot_git at h
  unfold strip_dot_git
  cases ho : strip4_tig_dot l.reverse with
  | none => rfl
  | some rest =>
    rw [ho] at h
    simp at h

lemma dropThroughChar_cons_self (c : Char) (l : List Char) :
    dropThroughChar c (c :: l) = l := by
  simp [dropThroughChar]

lemma dropThroughChar_append (c : Char) (l1 l2 : List Char) (h : c ∉ l1) :
    dropThroughChar c (l1 ++ c :: l2) = l2 := by
  induction l1 with
  | nil => simp [dropThroughChar]
  | cons x xs ih =>
    have hx : ¬ x = c := fun he => h (by simp [he])
    simp only [List.cons_append, dropThroughChar, hx, if_false]
    exact ih (fun hc => h (List.mem_cons_of_mem _ hc))

lemma has_ssh_form_git_at (l : List Char) :
    has_ssh_form ('g' :: 'i' :: 't' :: '@' :: l) = true := rfl

lemma has_ssh_form_h (l : List Char) :
    has_ssh_form ('h' :: l) = false := rfl

lemma dropThroughChar_slash_https_scheme (rest : List Char) :
    dropThroughChar '/' ('h' :: 't' :: 't' :: 'p' :: 's' :: ':' :: '/' :: '/' :: rest) =
      '/' :: rest := rfl

lemma get_local_repo_name_of_url_ssh (host org repo : List Char)
    (hhost : (':' : Char) ∉ host) :
    get_local_repo_name_of_url
      ('g' :: 'i' :: 't' :: '@' ::
        (host ++ ':' :: (org ++ '/' :: (repo ++ ['.', 'g', 'i', 't'])))) =
      org ++ '/' :: repo := by
  have hre : ('g' :: 'i' :: 't' :: '@' ::
      (host ++ ':' :: (org ++ '/' :: (repo ++ (['.', 'g', 'i', 't'] : List Char))))) =
      ('g' :: 'i' :: 't' :: '@' :: (host ++ ':' :: (org ++ '/' :: repo))) ++
        ['.', 'g', 'i', 't'] := by
    simp
  rw [hre]
  unfold get_local_repo_name_of_url
  rw [strip_dot_git_append, has_ssh_form_git_at]
  simp only [if_true]
  have hsh : ('g' :: 'i' :: 't' :: '@' :: (host ++ ':' :: (org ++ '/' :: repo)) : List Char) =
      ('g' :: 'i' :: 't' :: '@' :: host) ++ ':' :: (org ++ '/' :: repo) := by
    simp
  rw [hsh, dropThroughChar_append]
  intro hmem
  simp only [List.mem_cons] at hmem
  rcases hmem with h | h | h | h | h
  · exact absurd h (by decide)
  · exact absurd h (by decide)
  · exact absurd h (by decide)
  · exact absurd h (by decide)
  · exact hhost h

lemma get_local_repo_name_of_url_https_core (host org repo : List Char)
    (hhost : ('/' : Char) ∉ host) :
    (dropThroughChar '/' (dropThroughChar '/' (dropThroughChar '/'
      ('h' :: 't' :: 't' :: 'p' :: 's' :: ':' :: '/' :: '/' ::
        (host ++ '/' :: (org ++ '/' :: repo)))))) = org ++ '/' :: repo := by
  rw [dropThroughChar_slash_https_scheme, dropThroughChar_cons_self,
    dropThroughChar_append]
  exact hhost

lemma get_local_repo_name_of_url_https (host org repo : List Char)
    (hhost : ('/' : Char) ∉ host) :
    get_local_repo_name_of_url
      ('h' :: 't' :: 't' :: 'p' :: 's' :: ':' :: '/' :: '/' ::
        (host ++ '/' :: (org ++ '/' :: (repo ++ ['.', 'g', 'i', 't'])))) =
      org ++ '/' :: repo := by
  have hre : ('h' :: 't' :: 't' :: 'p' :: 's' :: ':' :: '/' :: '/' ::
      (host ++ '/' :: (org ++ '/' :: (repo ++ (['.', 'g', 'i', 't'] : List Char))))) =
      ('h' :: 't' :: 't' :: 'p' :: 's' :: ':' :: '/' :: '/' ::
        (host ++ '/' :: (org ++ '/' :: repo))) ++ ['.', 'g', 'i', 't'] := by
    simp
  rw [hre]
  unfold get_local_repo_name_of_url
  rw [strip_dot_git_append, has_ssh_form_h]
  simp only [Bool.false_eq_true, if_false]
  exact get_local_repo_name_of_url_https_core host org repo hhost

lemma get_local_repo_name_of_url_https_no_suffix (host org repo : List Char)
    (hhost : ('/' : Char) ∉ host)
    (hng : ends_with_dot_git
      ('h' :: 't' :: 't' :: 'p' :: 's' :: ':' :: '/' :: '/' ::
        (host ++ '/' :: (org ++ '/' :: repo))) = false) :
    get_local_repo_name_of_url
      ('h' :: 't' :: 't' :: 'p' :: 's' :: ':' :: '/' :: '/' ::
        (host ++ '/' :: (org ++ '/' :: repo))) = org ++ '/' :: repo := by
  unfold get_local_repo_name_of_url
  rw [strip_dot_git_of_no_suffix _ hng, has_ssh_form_h]
  simp only [Bool.false_eq_true, if_false]
  exact get_local_repo_name_of_url_https_core host org repo hhost

/-- Claim C6: for every repository whose configured remote URL has the SSH
form git@host:org/repo.git, the HTTPS form https://host/org/repo.git, or
the HTTPS form https://host/org/repo without the .git suffix,
get_local_repo_name returns the remote-derived repository name org/repo
with the optional .git suffix stripped. -/
theorem get_local_repo_name_url_forms (host org repo : List Char) (r : GitRepo) :
    ((':' : Char) ∉ host →
      r.remote_url = some ('g' :: 'i' :: 't' :: '@' ::
        (host ++ ':' :: (org ++ '/' :: (repo ++ ['.', 'g', 'i', 't'])))) →
      get_local_repo_name r = .ok (org ++ '/' :: repo)) ∧
    (('/' : Char) ∉ host →
      r.remote_url = some ('h' :: 't' :: 't' :: 'p' :: 's' :: ':' :: '/' :: '/' ::
        (host ++ '/' :: (org ++ '/' :: (repo ++ ['.', 'g', 'i', 't'])))) →
      get_local_repo_name r = .ok (org ++ '/' :: repo)) ∧
    (('/' : Char) ∉ host →
      ends_with_dot_git ('h' :: 't' :: 't' :: 'p' :: 's' :: ':' :: '/' :: '/' ::
        (host ++ '/' :: (org ++ '/' :: repo))) = false →
      r.remote_url = some ('h' :: 't' :: 't' :: 'p' :: 's' :: ':' :: '/' :: '/' ::
        (host ++ '/' :: (org ++ '/' :: repo))) →
      get_local_repo_name r = .ok (org ++ '/' :: repo)) := by
  refine ⟨fun hhost hurl => ?_, fun hhost hurl => ?_, fun hhost hng hurl => ?_⟩
  · rw [get_local_repo_name, hurl]
    exact congrArg Except.ok (get_local_repo_name_of_url_ssh host org repo hhost)
  · rw [get_local_repo_name, hurl]
    exact congrArg Except.ok (get_local_repo_name_of_url_https host org repo hhost)
  · rw [get_local_repo_name, hurl]
    exact congrArg Except.ok
      (get_local_repo_name_of_url_https_no_suffix host org repo hhost hng)

/-- Witness for C6 at the three concrete remote URLs of the tests, all
giving dagster-io/dagster. -/
theorem get_local_repo_name_url_forms_witness :
    get_local_repo_name ⟨some "git@github.com:dagster-io/dagster.git".toList, none, none⟩ =
      .ok "dagster-io/dagster".toList ∧
    get_local_repo_name ⟨some "https://github.com/dagster-io/dagster.git".toList, none, none⟩ =
      .ok "dagster-io/dagster".toList ∧
    get_local_repo_name ⟨some "https://github.com/dagster-io/dagster".toList, none, none⟩ =
      .ok "dagster-io/dagster".toList := by
  refine ⟨?_, ?_, ?_⟩
  · have h := (get_local_repo_name_url_forms
      "github.com".toList "dagster-io".toList "dagster".toList
      ⟨some "git@github.com:dagster-io/dagster.git".toList, none, none⟩).1
      (by decide) (by decide)
    exact h.trans (congrArg Except.ok (by decide))
  · have h := (get_local_repo_name_url_forms
      "github.com".toList "dagster-io".toList "dagster".toList
      ⟨some "https://github.com/dagster-io/dagster.git".toList, none, none⟩).2.1
      (by decide) (by decide)
    exact h.trans (congrArg Except.ok (by decide))
  · have h := (get_local_repo_name_url_forms
      "github.com".toList "dagster-io".toList "dagster".toList
      ⟨some "https://github.com/dagster-io/dagster".toList, none, none⟩).2.2
      (by decide) (by decide) (by decide)
    exact h.trans (congrArg Except.ok (by decide))

/-- Claim C4: the branch-deployment delete-by-name command issues exactly
two GraphQL calls in order, first the deployment-by-name lookup and, only
when the lookup returns a BRANCH deployment, the delete mutation carrying
the deploymentId obtained from the lookup; when the lookup reports the
deployment missing or of a non-branch type, the command exits non-zero
and issues no delete mutation, leaving the remote state unchanged. -/
theorem delete_branch_deployment_lookup_then_mutate
    (backend : GqlBackend) (deploymentName : String) :
    (∀ dn id, backend.deployment_by_name deploymentName =
        .found dn id "BRANCH" →
      delete_branch_deployment backend deploymentName =
        ([GqlCall.deploymentByName deploymentName, GqlCall.deleteDeployment id], 0)) ∧
    (backend.deployment_by_name deploymentName = .notFound →
      delete_branch_deployment backend deploymentName =
        ([GqlCall.deploymentByName deploymentName], 1)) ∧
    (∀ dn id ty, backend.deployment_by_name deploymentName = .found dn id ty →
      ty ≠ "BRANCH" →
      delete_branch_deployment backend deploymentName =
        ([GqlCall.deploymentByName deploymentName], 1)) := by
  refine ⟨fun dn id h => ?_, fun h => ?_, fun dn id ty h hty => ?_⟩
  · simp [delete_branch_deployment, h]
  · simp [delete_branch_deployment, h]
  · simp [delete_branch_deployment, h, hty]

/-- Witness for C4 at the concrete backends of the tests: a BRANCH
deployment named test-branch with id 456 is looked up and then deleted
with exit code 0; a FULL deployment and a missing deployment exit 1 with
no delete call. -/
theorem delete_branch_deployment_lookup_then_mutate_witness :
    delete_branch_deployment ⟨fun _ => .found "test-branch" 456 "BRANCH"⟩ "test-branch" =
      ([GqlCall.deploymentByName "test-branch", GqlCall.deleteDeployment 456], 0) ∧
    delete_branch_deployment ⟨fun _ => .found "prod" 789 "FULL"⟩ "prod" =
      ([GqlCall.deploymentByName "prod"], 1) ∧
    delete_branch_deployment ⟨fun _ => .notFound⟩ "nonexistent" =
      ([GqlCall.deploymentByName "nonexistent"], 1) :=
  ⟨(delete_branch_deployment_lookup_then_mutate
      ⟨fun _ => .found "test-branch" 456 "BRANCH"⟩ "test-branch").1 "test-branch" 456 rfl,
    (delete_branch_deployment_lookup_then_mutate
      ⟨fun _ => .found "prod" 789 "FULL"⟩ "prod").2.2 "prod" 789 "FULL" rfl (by decide),
    (delete_branch_deployment_lookup_then_mutate
      ⟨fun _ => .notFound⟩ "nonexistent").2.1 rfl⟩
